import Mathlib

/-!
Verification of the watch-and-restart supervisor and the npm lockfile and
cache resolution engine of this Deno slice.

The repository slice holds the integration tests of the watcher and npm
resolver (cli/tests/integration/watcher_tests.rs, npm_tests.rs), the CLI
entry point (cli/main.rs) and the broadcast-channel extension
(ext/broadcast_channel/lib.rs).  The watcher scheduler, the debouncer and
the lockfile resolver themselves are not part of the slice, so those
components are modelled from the specification and checked against the
behaviour the integration tests pin down; definitions taken from a source
file name that file.
-/

namespace Spec2Proof

/-! ## File event debouncer (modelled from the spec, section 4.1)

A WatchEvent carries a timestamp and a set of paths.  The debouncer keeps a
pending path set and a timer deadline: the first event after quiescence
starts a timer of fixed duration D, each event arriving before the deadline
resets the timer and accumulates its paths, and when the timer fires
uninterrupted a single DebouncedBatch with the accumulated set is emitted
and the state cleared. -/

/-- Modelled from the spec: the debouncer state.  `none` means no pending
batch; `some (acc, dl)` holds the accumulated path set and the timer
deadline. -/
def DebState : Type := Option (Finset String × Nat)

instance : DecidableEq DebState := by
  unfold DebState
  infer_instance

/-- Modelled from the spec: the fixed quiescence window, default 200ms. -/
def defaultQuiescenceWindow : Nat := 200

/-- Modelled from the spec: one WatchEvent reaching the debouncer, reduced to
its timestamp and path set. -/
structure WatchEv where
  time : Nat
  paths : Finset String
deriving DecidableEq

/-- Modelled from the spec: the debouncer consumes one event.  If a pending
set exists and the event arrives before the deadline, the timer is reset and
the paths accumulate; if the deadline had already passed, the pending batch
is emitted and a fresh batch begins with this event; with no pending state
the event opens a fresh batch. -/
def dstep (D : Nat) (st : DebState) (e : WatchEv) : List (Finset String) × DebState :=
  match st with
  | none => ([], some (e.paths, e.time + D))
  | some (acc, dl) =>
      if e.time < dl then ([], some (acc ∪ e.paths, e.time + D))
      else ([acc], some (e.paths, e.time + D))

/-- Modelled from the spec: run the debouncer over a list of events from a
given state, returning the batches emitted (in order) and the final state. -/
def dRunFrom (D : Nat) (st : DebState) : List WatchEv → List (Finset String) × DebState
  | [] => ([], st)
  | e :: rest =>
      let (em, st') := dstep D st e
      let (em', st'') := dRunFrom D st' rest
      (em ++ em', st'')

/-- Modelled from the spec: run the debouncer from the empty state. -/
def debounceRun (D : Nat) (evs : List WatchEv) : List (Finset String) × DebState :=
  dRunFrom D none evs

/-- Modelled from the spec: the timer fires at time `T`.  If a pending set
exists and `T` has reached the deadline, the accumulated batch is emitted and
the state cleared; otherwise nothing happens. -/
def flushAt (T : Nat) (st : DebState) : List (Finset String) × DebState :=
  match st with
  | none => ([], none)
  | some (acc, dl) => if dl ≤ T then ([acc], none) else ([], st)

/-- Modelled from the spec: all batches the debouncer emits for the event
list when time then advances to `T`, with the final state. -/
def debounceComplete (D : Nat) (evs : List WatchEv) (T : Nat) :
    List (Finset String) × DebState :=
  let (em, st) := debounceRun D evs
  let (em', st') := flushAt T st
  (em ++ em', st')

/-- Each event of the list arrives strictly within the window `D` of the
previous point in time `t`. -/
def chainFrom (D : Nat) : Nat → List WatchEv → Prop
  | _, [] => True
  | t, e :: rest => e.time < t + D ∧ chainFrom D e.time rest

instance chainFromDecidable (D t : Nat) (l : List WatchEv) : Decidable (chainFrom D t l) := by
  induction l generalizing t with
  | nil => exact .isTrue trivial
  | cons e rest ih => exact @instDecidableAnd _ _ _ (ih e.time)

/-- Union of the path sets of a list of events. -/
def unionPaths (evs : List WatchEv) : Finset String :=
  evs.foldr (fun e s => e.paths ∪ s) ∅

/-- Timestamp of the last event, or `t` when there is none. -/
def endTime : Nat → List WatchEv → Nat
  | t, [] => t
  | _, e :: rest => endTime e.time rest

/-- Processing a chain of events that each arrive before the running
deadline emits nothing and accumulates the union of the paths, leaving the
deadline at the last event plus `D`. -/
theorem dRunFrom_chain (D : Nat) :
    ∀ (evs : List WatchEv) (acc : Finset String) (t : Nat),
      chainFrom D t evs →
      dRunFrom D (some (acc, t + D)) evs =
        ([], some (acc ∪ unionPaths evs, endTime t evs + D)) := by
  intro evs
  induction evs with
  | nil =>
      intro acc t _
      simp [dRunFrom, unionPaths, endTime]
  | cons e rest ih =>
      intro acc t hc
      obtain ⟨hlt, hrest⟩ := hc
      simp only [dRunFrom, dstep, hlt, if_pos]
      rw [ih (acc ∪ e.paths) e.time hrest]
      simp [unionPaths, endTime, Finset.union_assoc]

/-- C5: for every sequence of N >= 1 WatchEvents in which each subsequent
event arrives strictly within the quiescence window of the previous one, the
debouncer emits no batch while the events keep arriving, and once the window
finally elapses uninterrupted it emits exactly one DebouncedBatch whose path
set is the union of the paths of all N events, clearing the pending state
afterwards. -/
theorem debouncer_coalesces_within_window (D t0 T : Nat) (p0 : Finset String)
    (rest : List WatchEv)
    (hchain : chainFrom D t0 rest)
    (hT : endTime t0 rest + D ≤ T) :
    debounceRun D (⟨t0, p0⟩ :: rest) =
      ([], some (p0 ∪ unionPaths rest, endTime t0 rest + D)) ∧
    debounceComplete D (⟨t0, p0⟩ :: rest) T = ([p0 ∪ unionPaths rest], none) := by
  have hrun : debounceRun D (⟨t0, p0⟩ :: rest) =
      ([], some (p0 ∪ unionPaths rest, endTime t0 rest + D)) := by
    show dRunFrom D none (⟨t0, p0⟩ :: rest) = _
    simp only [dRunFrom, dstep]
    rw [dRunFrom_chain D rest p0 t0 hchain]
    rfl
  refine ⟨hrun, ?_⟩
  simp only [debounceComplete, hrun, flushAt, if_pos hT]
  rfl

/-- Witness for C5: two events 100ms apart under a 200ms window coalesce into
the single batch holding both paths, and the pending state is cleared. -/
theorem debouncer_coalesces_within_window_witness :
    chainFrom 200 0 [⟨100, {"b"}⟩] ∧
    endTime 0 [WatchEv.mk 100 {"b"}] + 200 ≤ 400 ∧
    debounceComplete 200 [⟨0, {"a"}⟩, ⟨100, {"b"}⟩] 400 = ([{"a", "b"}], none) := by
  refine ⟨by decide, by decide, ?_⟩
  have h := debouncer_coalesces_within_window 200 0 400 {"a"} [⟨100, {"b"}⟩]
    (by decide) (by decide)
  exact h.2.trans (by decide)

/-! ## Broadcast channel subscribe op (from ext/broadcast_channel/lib.rs)

The op reads the stored `Unstable` flag from the op state; when the flag is
false it prints a message to stderr and calls `std::process::exit(70)`,
never returning to the caller.  Otherwise it calls `BC::subscribe`, which
may fail with an error propagated via `Result`, and on success adds the
resource to the resource table and returns the new resource id. -/

/-- Op state as the op sees it: the stored `--unstable` flag and the
resource table, kept as the list of already-allocated resource ids. -/
structure OpState where
  unstable : Bool
  resourceTable : List Nat
deriving DecidableEq

/-- Outcome of running a synchronous op: either it returns to the caller
(carrying a success value or a propagated error), or the whole process
terminates with an exit code after printing a line to stderr. -/
inductive OpOutcome (α : Type) where
  | returned (result : Except String α)
  | processExit (code : Nat) (stderrLine : String)

/-- Allocate the next resource id, as `resource_table.add` does. -/
def addResource (st : OpState) : Nat × OpState :=
  (st.resourceTable.length, { st with resourceTable := st.resourceTable ++ [st.resourceTable.length] })

/-- From ext/broadcast_channel/lib.rs, `op_broadcast_subscribe`: read the
`Unstable` flag; when false, print the unstable-API message and exit the
process with code 70; otherwise subscribe (`subscribeRes` stands for the
outcome of the external `BC::subscribe` collaborator) and register the
resource. -/
def op_broadcast_subscribe (st : OpState) (subscribeRes : Except String Unit) :
    OpOutcome (Nat × OpState) :=
  if !st.unstable then
    .processExit 70
      "Unstable API 'BroadcastChannel'. The --unstable flag must be provided."
  else
    match subscribeRes with
    | .error e => .returned (.error e)
    | .ok _ => .returned (.ok (addResource st))

/-- C10: whenever the stored unstable flag is false, `op_broadcast_subscribe`
never returns to its caller — neither a resource id nor an error value, no
matter how the subscribe collaborator would behave — but prints the
Unstable API message to stderr and terminates the whole process with exit
code 70, a code outside the 0/1/10 set of the exit-code table. -/
theorem op_broadcast_subscribe_unstable_exits_70 (st : OpState)
    (subscribeRes : Except String Unit) (h : st.unstable = false) :
    op_broadcast_subscribe st subscribeRes =
      .processExit 70
        "Unstable API 'BroadcastChannel'. The --unstable flag must be provided." ∧
    (∀ r, op_broadcast_subscribe st subscribeRes ≠ .returned r) ∧
    (70 : Nat) ≠ 0 ∧ (70 : Nat) ≠ 1 ∧ (70 : Nat) ≠ 10 := by
  simp only [op_broadcast_subscribe, h]
  refine ⟨rfl, ?_, by decide, by decide, by decide⟩
  intro r hr
  simp at hr

/-- Witness for C10: a concrete op state with the unstable flag off exits
with code 70 even when the subscribe collaborator would have succeeded. -/
theorem op_broadcast_subscribe_unstable_exits_70_witness :
    (OpState.mk false [] : OpState).unstable = false ∧
    op_broadcast_subscribe ⟨false, []⟩ (.ok ()) =
      .processExit 70
        "Unstable API 'BroadcastChannel'. The --unstable flag must be provided." :=
  ⟨rfl, (op_broadcast_subscribe_unstable_exits_70 ⟨false, []⟩ (.ok ()) rfl).1⟩

/-! ## Restart scheduler (modelled from the spec, sections 4.3 and 5)

The scheduler owns the lifecycle of the supervised subcommand.  Each run is
a RunHandle with states Starting, Running, Finishing, Cancelled and the
terminal done state (Finishing to done or Cancelled to done).  The
scheduler state machine per run cycle is Idle, Starting, Running, then
Finishing (natural completion) or Cancelling (a batch arrived); Cancelling
acknowledges cooperatively, after which the pending restart spawns.  A
batch during Starting coalesces into the already-queued restart, a batch
during Cancelling coalesces into the pending restart, and the supervisor
terminates only on an explicit interrupt. -/

/-- Modelled from the spec: the lifecycle states of one RunHandle. -/
inductive HandleState where
  | starting
  | running
  | finishing
  | cancelled
  | done
deriving DecidableEq

/-- A handle is live when it is in Starting or Running. -/
def HandleState.isLive : HandleState → Bool
  | .starting => true
  | .running => true
  | _ => false

/-- Modelled from the spec: the scheduler phase, naming the current handle. -/
inductive SchedPhase where
  | idle
  | starting (h : Nat)
  | running (h : Nat)
  | finishing (h : Nat)
  | cancelling (h : Nat)
  | terminated
deriving DecidableEq

/-- Modelled from the spec: the diagnostics the watch loop emits.  The error
report stands for the user-visible error of a failed run. -/
inductive Diag where
  | processStarted
  | processFinished
  | restarting
  | watchingPaths
  | errorReported
deriving DecidableEq

/-- Modelled from the spec: the events driving the scheduler: a
DebouncedBatch delivered, the spawned run beginning to execute, the run
completing naturally or surfacing an error, teardown of a finishing run
completing, a cancellation being acknowledged, and an interrupt signal. -/
inductive SchedEvent where
  | batch
  | runStarted
  | runFinished
  | runErrored
  | finishAck
  | cancelAck
  | interrupt
deriving DecidableEq

/-- The scheduler with the states of every RunHandle ever created (handle
ids below `nextId`; ids never allocated read as done) and the diagnostic
trace in emission order. -/
structure Scheduler where
  phase : SchedPhase
  nextId : Nat
  hstate : Nat → HandleState
  trace : List Diag

/-- Point update of the handle-state map. -/
def setH (f : Nat → HandleState) (i : Nat) (s : HandleState) : Nat → HandleState :=
  fun j => if j = i then s else f j

/-- Modelled from the spec: at supervisor start the first run is spawned
immediately; no Restarting diagnostic is emitted for it. -/
def initScheduler : Scheduler :=
  { phase := .starting 0
    nextId := 1
    hstate := setH (fun _ => .done) 0 .starting
    trace := [] }

/-- Modelled from the spec: one scheduler transition.  Batches during
Running or Finishing request cancellation of the live handle and queue a
restart; batches during Starting or Cancelling coalesce; the acknowledged
cancellation spawns the queued restart; runs that error transition through
Finishing like normal completions, with the error reported instead of the
finished diagnostic. -/
def schedStep (m : Scheduler) (e : SchedEvent) : Scheduler :=
  match e, m.phase with
  | .batch, .idle =>
      { m with
        phase := .starting m.nextId
        nextId := m.nextId + 1
        hstate := setH m.hstate m.nextId .starting
        trace := m.trace ++ [.restarting] }
  | .batch, .running h =>
      { m with
        phase := .cancelling h
        hstate := setH m.hstate h .cancelled
        trace := m.trace ++ [.restarting] }
  | .batch, .finishing h =>
      { m with
        phase := .cancelling h
        hstate := setH m.hstate h .cancelled
        trace := m.trace ++ [.restarting] }
  | .runStarted, .starting h =>
      { m with
        phase := .running h
        hstate := setH m.hstate h .running
        trace := m.trace ++ [.processStarted, .watchingPaths] }
  | .runFinished, .running h =>
      { m with
        phase := .finishing h
        hstate := setH m.hstate h .finishing
        trace := m.trace ++ [.processFinished] }
  | .runErrored, .running h =>
      { m with
        phase := .finishing h
        hstate := setH m.hstate h .finishing
        trace := m.trace ++ [.errorReported] }
  | .finishAck, .finishing h =>
      { m with
        phase := .idle
        hstate := setH m.hstate h .done }
  | .cancelAck, .cancelling h =>
      { m with
        phase := .starting m.nextId
        nextId := m.nextId + 1
        hstate := setH (setH m.hstate h .done) m.nextId .starting }
  | .interrupt, .idle => { m with phase := .terminated }
  | .interrupt, .starting h =>
      { m with phase := .terminated, hstate := setH m.hstate h .done }
  | .interrupt, .running h =>
      { m with phase := .terminated, hstate := setH m.hstate h .done }
  | .interrupt, .finishing h =>
      { m with phase := .terminated, hstate := setH m.hstate h .done }
  | .interrupt, .cancelling h =>
      { m with phase := .terminated, hstate := setH m.hstate h .done }
  | _, _ => m

/-- Run the scheduler over a list of events from the initial state. -/
def schedRun (evs : List SchedEvent) : Scheduler :=
  evs.foldl schedStep initScheduler

/-- The single-owner invariant of the scheduler: when Idle or terminated
every handle ever created is done; otherwise the phase names the one
current handle, whose state agrees with the phase, and every other handle
is done. -/
def SchedInv (m : Scheduler) : Prop :=
  match m.phase with
  | .idle => ∀ i, m.hstate i = .done
  | .terminated => ∀ i, m.hstate i = .done
  | .starting h =>
      h < m.nextId ∧ m.hstate h = .starting ∧ ∀ i, i ≠ h → m.hstate i = .done
  | .running h =>
      h < m.nextId ∧ m.hstate h = .running ∧ ∀ i, i ≠ h → m.hstate i = .done
  | .finishing h =>
      h < m.nextId ∧ m.hstate h = .finishing ∧ ∀ i, i ≠ h → m.hstate i = .done
  | .cancelling h =>
      h < m.nextId ∧ m.hstate h = .cancelled ∧ ∀ i, i ≠ h → m.hstate i = .done

/-- The initial scheduler satisfies the single-owner invariant. -/
theorem initScheduler_inv : SchedInv initScheduler := by
  refine ⟨Nat.zero_lt_one, by simp [initScheduler, setH], ?_⟩
  intro i hi
  simp [initScheduler, setH, hi]

/-- Marking the one non-done handle as done leaves every handle done. -/
theorem setH_done_all (f : Nat → HandleState) (h : Nat)
    (hothers : ∀ i, i ≠ h → f i = .done) : ∀ i, setH f h .done i = .done := by
  intro i
  by_cases hih : i = h
  · simp [setH, hih]
  · simp [setH, hih, hothers i hih]

/-- Spawning a fresh handle from Idle restores the single-owner shape. -/
theorem spawn_from_idle_inv (f : Nat → HandleState) (n : Nat)
    (hall : ∀ i, f i = .done) :
    n < n + 1 ∧ setH f n .starting n = .starting ∧
      ∀ i, i ≠ n → setH f n .starting i = .done := by
  refine ⟨Nat.lt_succ_self n, by simp [setH], ?_⟩
  intro i hi
  simp [setH, hi, hall i]

/-- Moving the current handle to a new state keeps the single-owner shape. -/
theorem retag_inv (f : Nat → HandleState) (h nn : Nat) (s' : HandleState)
    (hlt : h < nn) (hothers : ∀ i, i ≠ h → f i = .done) :
    h < nn ∧ setH f h s' h = s' ∧ ∀ i, i ≠ h → setH f h s' i = .done := by
  refine ⟨hlt, by simp [setH], ?_⟩
  intro i hi
  simp [setH, hi, hothers i hi]

/-- After the cancelled handle is marked done and a fresh handle spawns,
the fresh handle is the single live owner. -/
theorem spawn_after_cancel_inv (f : Nat → HandleState) (h n : Nat)
    (hothers : ∀ i, i ≠ h → f i = .done) :
    n < n + 1 ∧ setH (setH f h .done) n .starting n = .starting ∧
      ∀ i, i ≠ n → setH (setH f h .done) n .starting i = .done := by
  refine ⟨Nat.lt_succ_self n, by simp [setH], ?_⟩
  intro i hi
  by_cases hih : i = h
  · subst hih
    simp [setH, hi]
  · simp [setH, hi, hih, hothers i hih]

/-- Every scheduler transition preserves the single-owner invariant. -/
theorem schedStep_inv (m : Scheduler) (e : SchedEvent) (hinv : SchedInv m) :
    SchedInv (schedStep m e) := by
  obtain ⟨ph, n, f, tr⟩ := m
  cases e <;> cases ph <;>
    simp only [SchedInv, schedStep] at hinv ⊢ <;>
    first
    | exact hinv
    | exact spawn_from_idle_inv f n hinv
    | exact retag_inv f _ n _ hinv.1 hinv.2.2
    | exact setH_done_all f _ hinv.2.2
    | exact spawn_after_cancel_inv f _ n hinv.2.2

/-- The single-owner invariant holds after any event sequence. -/
theorem schedRun_inv (evs : List SchedEvent) : SchedInv (schedRun evs) := by
  have aux : ∀ (l : List SchedEvent) (m : Scheduler),
      SchedInv m → SchedInv (l.foldl schedStep m) := by
    intro l
    induction l with
    | nil => exact fun m hm => hm
    | cons e rest ih => exact fun m hm => ih _ (schedStep_inv m e hm)
  exact aux evs initScheduler initScheduler_inv

/-- C1: for every sequence of events delivered to the scheduler, including
batches arriving during cancellation, no two distinct RunHandles are ever
simultaneously in Starting or Running; indeed whenever a handle is live
every other handle ever created has fully reached the terminal done state,
so a new run enters Starting only after the previous one is terminal. -/
theorem scheduler_no_concurrent_live_handles (evs : List SchedEvent) (i j : Nat)
    (hi : ((schedRun evs).hstate i).isLive = true)
    (hj : ((schedRun evs).hstate j).isLive = true) :
    i = j ∧ ∀ k, k ≠ i → (schedRun evs).hstate k = .done := by
  have hinv := schedRun_inv evs
  rcases hph : (schedRun evs).phase with _ | h | h | h | h | _ <;>
    simp only [SchedInv, hph] at hinv
  · rw [hinv i] at hi
    simp [HandleState.isLive] at hi
  · have hIH : i = h := by
      by_contra hne
      rw [hinv.2.2 i hne] at hi
      simp [HandleState.isLive] at hi
    have hJH : j = h := by
      by_contra hne
      rw [hinv.2.2 j hne] at hj
      simp [HandleState.isLive] at hj
    exact ⟨hIH.trans hJH.symm, fun k hk => hinv.2.2 k (hIH ▸ hk)⟩
  · have hIH : i = h := by
      by_contra hne
      rw [hinv.2.2 i hne] at hi
      simp [HandleState.isLive] at hi
    have hJH : j = h := by
      by_contra hne
      rw [hinv.2.2 j hne] at hj
      simp [HandleState.isLive] at hj
    exact ⟨hIH.trans hJH.symm, fun k hk => hinv.2.2 k (hIH ▸ hk)⟩
  · by_cases hih : i = h
    · rw [hih, hinv.2.1] at hi
      simp [HandleState.isLive] at hi
    · rw [hinv.2.2 i hih] at hi
      simp [HandleState.isLive] at hi
  · by_cases hih : i = h
    · rw [hih, hinv.2.1] at hi
      simp [HandleState.isLive] at hi
    · rw [hinv.2.2 i hih] at hi
      simp [HandleState.isLive] at hi
  · rw [hinv i] at hi
    simp [HandleState.isLive] at hi

/-- Witness for C1: after the first run begins, handle 0 is live, it is the
only live handle, and every other handle is done. -/
theorem scheduler_no_concurrent_live_handles_witness :
    ((schedRun [SchedEvent.runStarted]).hstate 0).isLive = true ∧
    (0 = 0 ∧ ∀ k, k ≠ 0 → (schedRun [SchedEvent.runStarted]).hstate k = .done) :=
  ⟨by decide,
    scheduler_no_concurrent_live_handles [SchedEvent.runStarted] 0 0
      (by decide) (by decide)⟩

/-! ## Diagnostic trace discipline (C6)

A scanner over the emitted diagnostics checks the per-transition discipline:
Process started may only follow a state in which a start is legitimate (the
very first run, or after a finish, an error report or a Restarting), Process
finished and the error report may only follow a started-and-unfinished run,
and Restarting may never precede the first Process started.  This rules out
duplicated or out-of-order diagnostics for a transition. -/

/-- State of the diagnostic scanner: whether the trace is well formed so
far, whether a Process started is currently legitimate, whether a Process
finished (or error report) is currently legitimate, and whether any run has
started yet. -/
structure ScanSt where
  ok : Bool
  canStart : Bool
  canFinish : Bool
  seenStart : Bool
deriving DecidableEq

/-- Scanner start state: the first run may start, nothing may finish, no
run seen yet. -/
def scanInit : ScanSt := ⟨true, true, false, false⟩

/-- Scanner transition over one diagnostic. -/
def stepScan (st : ScanSt) (d : Diag) : ScanSt :=
  match d with
  | .processStarted => ⟨st.ok && st.canStart, false, true, true⟩
  | .processFinished => ⟨st.ok && st.canFinish, true, false, st.seenStart⟩
  | .errorReported => ⟨st.ok && st.canFinish, true, false, st.seenStart⟩
  | .restarting => ⟨st.ok && st.seenStart, true, false, st.seenStart⟩
  | .watchingPaths => st

/-- Scan a whole trace. -/
def scanTrace (tr : List Diag) : ScanSt := tr.foldl stepScan scanInit

/-- A trace obeys the diagnostic discipline when the scanner accepts it. -/
def wellFormedTrace (tr : List Diag) : Bool := (scanTrace tr).ok

/-- Scanning an extended trace continues from the scan of its prefix. -/
theorem scanTrace_append (tr l : List Diag) :
    scanTrace (tr ++ l) = l.foldl stepScan (scanTrace tr) :=
  List.foldl_append ..

/-- The invariant tying the scanner state to the scheduler phase: the trace
scans well formed, a start is legitimate whenever a run is queued to start,
a finish is legitimate exactly while a run is executing, and once past the
first spawn some run has started. -/
def TraceInv (m : Scheduler) : Prop :=
  (scanTrace m.trace).ok = true ∧
  match m.phase with
  | .idle => (scanTrace m.trace).seenStart = true
  | .terminated => True
  | .starting _ => (scanTrace m.trace).canStart = true
  | .running _ =>
      (scanTrace m.trace).canFinish = true ∧ (scanTrace m.trace).seenStart = true
  | .finishing _ => (scanTrace m.trace).seenStart = true
  | .cancelling _ =>
      (scanTrace m.trace).canStart = true ∧ (scanTrace m.trace).seenStart = true

/-- The initial scheduler satisfies the trace invariant. -/
theorem initScheduler_traceInv : TraceInv initScheduler := by
  simp only [TraceInv, initScheduler]
  exact ⟨by decide, by decide⟩

/-- Every scheduler transition preserves the trace invariant. -/
theorem traceInv_step (m : Scheduler) (e : SchedEvent) (ht : TraceInv m) :
    TraceInv (schedStep m e) := by
  obtain ⟨ph, n, f, tr⟩ := m
  cases e <;> cases ph <;>
    simp only [TraceInv, schedStep, scanTrace_append, List.foldl_cons,
      List.foldl_nil, stepScan] at ht ⊢ <;>
    simp_all

/-- The trace invariant holds after any event sequence. -/
theorem schedRun_traceInv (evs : List SchedEvent) : TraceInv (schedRun evs) := by
  have aux : ∀ (l : List SchedEvent) (m : Scheduler),
      TraceInv m → TraceInv (l.foldl schedStep m) := by
    intro l
    induction l with
    | nil => exact fun m hm => hm
    | cons e rest ih => exact fun m hm => ih _ (traceInv_step m e hm)
  exact aux evs initScheduler initScheduler_traceInv

/-- C6: in every watch session the diagnostics obey the per-transition
discipline — Process started, Process finished and Restarting each appear
exactly once per corresponding transition and in transition order (no
second start without an intervening finish, error or restart, no finish
without an executing run), and no Restarting is ever emitted before the
very first run starts.  Concretely, a first run that starts and finishes
followed by a file-change batch and a second run emits exactly started,
watching-paths, finished, Restarting, started, watching-paths, finished. -/
theorem watch_diagnostics_discipline :
    (∀ evs : List SchedEvent, wellFormedTrace (schedRun evs).trace = true) ∧
    (schedRun [.runStarted, .runFinished, .finishAck, .batch,
        .runStarted, .runFinished]).trace =
      [.processStarted, .watchingPaths, .processFinished, .restarting,
        .processStarted, .watchingPaths, .processFinished] :=
  ⟨fun evs => (schedRun_traceInv evs).1, by decide⟩

/-- C7: a run that surfaces an error never terminates the supervisor: the
scheduler only reaches the terminated phase through an explicit interrupt,
and after an errored run it transitions through Finishing to Idle, so that
a subsequent file-change batch spawns a brand-new run (a fresh handle in
Starting) while the error report stays in the trace. -/
theorem watcher_error_is_nonfatal :
    (∀ evs : List SchedEvent, SchedEvent.interrupt ∉ evs →
      (schedRun evs).phase ≠ .terminated) ∧
    (∀ (evs : List SchedEvent) (h : Nat), (schedRun evs).phase = .running h →
      (schedRun (evs ++ [.runErrored, .finishAck, .batch])).phase =
        .starting (schedRun evs).nextId ∧
      (schedRun evs).nextId ≠ h ∧
      (schedRun (evs ++ [.runErrored, .finishAck, .batch])).hstate
        ((schedRun evs).nextId) = .starting ∧
      Diag.errorReported ∈
        (schedRun (evs ++ [.runErrored, .finishAck, .batch])).trace) := by
  constructor
  · have hstep : ∀ (m : Scheduler) (e : SchedEvent), e ≠ .interrupt →
        m.phase ≠ .terminated → (schedStep m e).phase ≠ .terminated := by
      intro m e he hm
      obtain ⟨ph, n, f, tr⟩ := m
      cases e <;> cases ph <;> simp_all [schedStep]
    have aux : ∀ (l : List SchedEvent) (m : Scheduler),
        (∀ e ∈ l, e ≠ SchedEvent.interrupt) → m.phase ≠ .terminated →
        (l.foldl schedStep m).phase ≠ .terminated := by
      intro l
      induction l with
      | nil => exact fun m _ hm => hm
      | cons e rest ih =>
          intro m hl hm
          exact ih _ (fun x hx => hl x (List.mem_cons_of_mem e hx))
            (hstep m e (hl e (List.mem_cons_self e rest)) hm)
    intro evs hmem
    exact aux evs initScheduler (fun e he hei => hmem (hei ▸ he)) (by decide)
  · intro evs h hrun
    have hinv := schedRun_inv evs
    have hfold : schedRun (evs ++ [.runErrored, .finishAck, .batch]) =
        [SchedEvent.runErrored, .finishAck, .batch].foldl schedStep (schedRun evs) := by
      rw [schedRun, schedRun, List.foldl_append]
    revert hinv hrun
    rw [hfold]
    generalize schedRun evs = m
    obtain ⟨ph, n, f, tr⟩ := m
    intro hrun hinv
    change ph = SchedPhase.running h at hrun
    subst hrun
    simp only [SchedInv] at hinv
    refine ⟨by simp [schedStep], Nat.ne_of_gt hinv.1, by simp [schedStep, setH], ?_⟩
    simp [schedStep]

/-- Witness for C7: the empty session is not terminated, and from a running
first run an error followed by teardown and a file-change batch yields a
fresh run in Starting with the error reported in the trace. -/
theorem watcher_error_is_nonfatal_witness :
    SchedEvent.interrupt ∉ ([] : List SchedEvent) ∧
    (schedRun []).phase ≠ .terminated ∧
    (schedRun [SchedEvent.runStarted]).phase = .running 0 ∧
    ((schedRun ([SchedEvent.runStarted] ++ [.runErrored, .finishAck, .batch])).phase =
        .starting (schedRun [SchedEvent.runStarted]).nextId ∧
      (schedRun [SchedEvent.runStarted]).nextId ≠ 0 ∧
      (schedRun ([SchedEvent.runStarted] ++ [.runErrored, .finishAck, .batch])).hstate
        ((schedRun [SchedEvent.runStarted]).nextId) = .starting ∧
      Diag.errorReported ∈
        (schedRun ([SchedEvent.runStarted] ++ [.runErrored, .finishAck, .batch])).trace) :=
  ⟨by decide, watcher_error_is_nonfatal.1 [] (by decide), by decide,
    watcher_error_is_nonfatal.2 [SchedEvent.runStarted] 0 (by decide)⟩

/-! ## Lockfile data model (modelled from the spec, sections 3 and 6)

The persisted lockfile document holds `version`, `remote`, and an npm
section with `specifiers` (specifier text to identity text `name@version`)
and `packages` (identity text to integrity plus ordered dependency
mapping).  Mappings are kept as ordered association lists, as the document
serializes them. -/

/-- Modelled from the spec: one entry of `npm.packages`. -/
structure PackageEntry where
  integrity : String
  dependencies : List (String × String)
deriving DecidableEq

/-- Modelled from the spec: the `npm` section of a lockfile. -/
structure NpmSnapshot where
  specifiers : List (String × String)
  packages : List (String × PackageEntry)
deriving DecidableEq

/-- Modelled from the spec: a whole lockfile document. -/
structure LockfileContent where
  version : String
  remote : List (String × String)
  npm : NpmSnapshot
deriving DecidableEq

/-- Every identity referenced by the snapshot, as specifier target or as a
dependency value, in document order. -/
def referencedIds (s : NpmSnapshot) : List String :=
  s.specifiers.map Prod.snd ++
    s.packages.flatMap (fun p => p.2.dependencies.map Prod.snd)

/-- The first referenced identity with no entry in `npm.packages`, if any:
the spec says such a snapshot is corrupt. -/
def firstMissingRef (s : NpmSnapshot) : Option String :=
  (referencedIds s).find? (fun id => (s.packages.lookup id).isNone)

/-! ## CLI error surface and exit codes (from cli/main.rs)

`unwrap_or_exit` prints the error and exits: a JsError is formatted, a
LockfileError switches the exit code from 1 to 10, anything else keeps
code 1 and its debug format. -/

/-- The error taxonomy `unwrap_or_exit` distinguishes by downcast. -/
inductive CliError where
  | jsError (formatted : String)
  | lockfileError (message : String)
  | otherError (debugFormat : String)
deriving DecidableEq

/-- Result of the CLI entry point: the computed value, or a process exit
with a code and the stderr line printed. -/
inductive CliOutcome (α : Type) where
  | value (v : α)
  | exitWith (code : Nat) (stderrLine : String)

/-- From cli/main.rs: `trim_start_matches("error: ")` removes every leading
repetition of the marker. -/
def stripErrMarkerLoop : Nat → List Char → List Char
  | 0, s => s
  | fuel + 1, s =>
      if ("error: ".data).isPrefixOf s then stripErrMarkerLoop fuel (s.drop 7)
      else s

/-- String-level wrapper of the marker stripping. -/
def trimStartErrorMarker (s : String) : String :=
  String.mk (stripErrMarkerLoop s.data.length s.data)

/-- From cli/main.rs, `unwrap_or_exit`: on success return the value; on
error pick the error text (the formatted JsError, the LockfileError
display, or the debug format) and the exit code (10 exactly for a
LockfileError, otherwise 1), print `error: ` plus the text with leading
`error: ` markers trimmed, and exit. -/
def unwrap_or_exit {α : Type} : Except CliError α → CliOutcome α
  | .ok v => .value v
  | .error e =>
      let errorString :=
        match e with
        | .jsError m => m
        | .lockfileError m => m
        | .otherError m => m
      let errorCode : Nat :=
        match e with
        | .lockfileError _ => 10
        | _ => 1
      .exitWith errorCode ("error: " ++ trimStartErrorMarker errorString)

/-- Middle constant of the corrupt-lockfile message, between the lockfile
name and the missing identity. -/
def lockfileMid : String :=
  "'\n\nCaused by:\n    0: The lockfile is corrupt. You can recreate it with --lock-write\n    1: Could not find referenced package '"

/-- Body of the corrupt-lockfile message, as the
lock_file_missing_top_level_package test pins it down. -/
def lockfileBody (filename id : String) : String :=
  "failed reading lockfile '" ++ filename ++ lockfileMid ++ id ++
    "' in the list of packages.\n"

/-- Modelled from the spec (the lockfile reader is not part of the slice;
the message text is pinned by the lock_file_missing_top_level_package
test): reading a lockfile whose snapshot references a missing package
fails with a LockfileError naming the missing identity. -/
def lockfileCorruptError (filename id : String) : CliError :=
  .lockfileError (lockfileBody filename id)

/-- Modelled from the spec: with `--lock`, the lockfile is read and
validated before anything runs; a corrupt snapshot is rejected. -/
def readLockfile (filename : String) (lf : LockfileContent) :
    Except CliError LockfileContent :=
  match firstMissingRef lf.npm with
  | some id => .error (lockfileCorruptError filename id)
  | none => .ok lf

/-- Modelled from the spec: the whole command under `--lock` — read the
lockfile, and only when that succeeds run the program (the `.value` result
stands for the program having run). -/
def executeWithLock (filename : String) (lf : LockfileContent) :
    CliOutcome String :=
  unwrap_or_exit ((readLockfile filename lf).map (fun _ => "program ran"))

/-- A successful association-list lookup produces one of the stored
values. -/
theorem lookup_value_mem {l : List (String × String)} {s id : String}
    (h : l.lookup s = some id) : id ∈ l.map Prod.snd := by
  induction l with
  | nil => simp [List.lookup] at h
  | cons p rest ih =>
      obtain ⟨k, v⟩ := p
      rw [List.lookup] at h
      cases hsk : s == k
      · rw [hsk] at h
        exact List.mem_cons_of_mem _ (ih h)
      · rw [hsk] at h
        have hv : v = id := Option.some.inj h
        subst hv
        exact List.mem_cons_self _ _

/-- Stripping the leading `error: ` markers leaves a list that starts with
any other character unchanged. -/
theorem stripErrMarkerLoop_ne (fuel : Nat) (c : Char) (rest : List Char)
    (hc : c ≠ 'e') : stripErrMarkerLoop fuel (c :: rest) = c :: rest := by
  cases fuel with
  | zero => rfl
  | succ n =>
      have hp : (("error: ".data).isPrefixOf (c :: rest)) = false := by
        have hdata : "error: ".data = 'e' :: "rror: ".data := rfl
        rw [hdata]
        simp [List.isPrefixOf]
        exact fun he => absurd he.symm hc
      simp [stripErrMarkerLoop, hp]

/-- C3: a lockfile whose `npm.specifiers` pins a specifier to an identity
that `npm.packages` lacks makes the `--lock` run fail before the program
runs: the surfaced error is a LockfileError whose message names a missing
identity, the process exits with code 10, and — per cli/main.rs — exit
code 10 arises exactly when the surfaced error is a LockfileError, every
other non-JS error exiting with code 1. -/
theorem corrupt_lockfile_exits_with_code_10 :
    (∀ (fn : String) (lf : LockfileContent) (s id : String),
      lf.npm.specifiers.lookup s = some id →
      lf.npm.packages.lookup id = none →
      ∃ missing msg,
        lf.npm.packages.lookup missing = none ∧
        missing.data <:+: msg.data ∧
        executeWithLock fn lf = .exitWith 10 msg ∧
        ∀ v, executeWithLock fn lf ≠ .value v) ∧
    (∀ (e : CliError) (code : Nat) (msg : String),
      unwrap_or_exit (α := String) (.error e) = .exitWith code msg →
      (code = 10 ↔ ∃ m, e = .lockfileError m)) := by
  constructor
  · intro fn lf s id hs hid
    have hmem : id ∈ referencedIds lf.npm :=
      List.mem_append_left _ (lookup_value_mem hs)
    have hsome : ((referencedIds lf.npm).find?
        fun x => (lf.npm.packages.lookup x).isNone).isSome :=
      List.find?_isSome.mpr ⟨id, hmem, by simp [hid]⟩
    obtain ⟨missing, hfind⟩ := Option.isSome_iff_exists.mp hsome
    have hmiss : (lf.npm.packages.lookup missing).isNone = true :=
      List.find?_some (p := fun x => (lf.npm.packages.lookup x).isNone) hfind
    have hdata : (lockfileBody fn missing).data =
        "failed reading lockfile '".data ++ fn.data ++
          lockfileMid.data ++ missing.data ++
          "' in the list of packages.\n".data := by
      simp [lockfileBody, lockfileMid, String.data_append, List.append_assoc]
    obtain ⟨tl, htl⟩ : ∃ tl, (lockfileBody fn missing).data = 'f' :: tl := by
      refine ⟨"ailed reading lockfile '".data ++ fn.data ++ lockfileMid.data ++
        missing.data ++ "' in the list of packages.\n".data, ?_⟩
      rw [hdata]
      rfl
    have htrim : trimStartErrorMarker (lockfileBody fn missing) =
        lockfileBody fn missing := by
      rw [trimStartErrorMarker, htl, stripErrMarkerLoop_ne _ _ _ (by decide)]
      exact String.ext htl.symm
    have hexec : executeWithLock fn lf =
        .exitWith 10 ("error: " ++ lockfileBody fn missing) := by
      simp [executeWithLock, readLockfile, firstMissingRef, hfind,
        lockfileCorruptError, unwrap_or_exit, Except.map, htrim]
    refine ⟨missing, "error: " ++ lockfileBody fn missing,
      Option.isNone_iff_eq_none.mp hmiss, ?_, hexec, ?_⟩
    · refine ⟨"error: ".data ++ "failed reading lockfile '".data ++
        fn.data ++ lockfileMid.data, "' in the list of packages.\n".data, ?_⟩
      simp [String.data_append, hdata, List.append_assoc]
    · intro v hv
      rw [hexec] at hv
      exact CliOutcome.noConfusion hv
  · intro e code msg h
    cases e <;> simp [unwrap_or_exit] at h <;> simp [← h.1]

/-- Witness for C3: the lockfile of the lock_file_missing_top_level_package
test, reduced to its cowsay specifier and one unrelated package, pins
cowsay to cowsay@1.5.0 while npm.packages lacks that identity: the run
exits with code 10 and the message names cowsay@1.5.0. -/
theorem corrupt_lockfile_exits_with_code_10_witness :
    ([("cowsay", "cowsay@1.5.0")].lookup "cowsay" = some "cowsay@1.5.0") ∧
    (([("ansi-regex@3.0.1", PackageEntry.mk "sha512-x" [])].lookup
      "cowsay@1.5.0") = none) ∧
    (∃ missing msg,
      ([("ansi-regex@3.0.1", PackageEntry.mk "sha512-x" [])].lookup missing
          = none) ∧
      missing.data <:+: msg.data ∧
      executeWithLock "deno.lock"
          ⟨"2", [], ⟨[("cowsay", "cowsay@1.5.0")],
            [("ansi-regex@3.0.1", ⟨"sha512-x", []⟩)]⟩⟩ = .exitWith 10 msg ∧
      ∀ v, executeWithLock "deno.lock"
          ⟨"2", [], ⟨[("cowsay", "cowsay@1.5.0")],
            [("ansi-regex@3.0.1", ⟨"sha512-x", []⟩)]⟩⟩ ≠ .value v) :=
  ⟨by decide, by decide,
    corrupt_lockfile_exits_with_code_10.1 "deno.lock"
      ⟨"2", [], ⟨[("cowsay", "cowsay@1.5.0")],
        [("ansi-regex@3.0.1", ⟨"sha512-x", []⟩)]⟩⟩
      "cowsay" "cowsay@1.5.0" (by decide) (by decide)⟩

/-! ## Lockfile resolver (modelled from the spec, section 4.4)

`resolve` reconciles the requested specifiers, the persisted snapshot and
the package cache.  Specifiers already pinned are kept unless reloading;
every still-required identity (the transitive dependency closure of the
pinned roots) is looked up in the cache keyed by identity and integrity; a
miss in cached-only mode fails with NotFoundInCache naming the missing
item, a miss otherwise delegates to the RegistryClient, which the spec
treats as an external collaborator — it is passed in as a function, and
the Bool of the result records whether it was contacted at all. -/

/-- Modelled from the spec: a content-addressed cache entry. -/
structure CacheEntry where
  id : String
  integrity : String
deriving DecidableEq

/-- Modelled from the spec: the resolution mode. -/
inductive ResolveMode where
  | normal
  | cachedOnly
  | reload
deriving DecidableEq

/-- Modelled from the spec: the resolution-fatal error taxonomy. -/
inductive ResolveError where
  | integrityMismatch (id : String)
  | notFoundInRegistry (name : String)
  | notFoundInCache (item : String)
  | corruptLockfile (id : String)
deriving DecidableEq

/-- Dependency identities recorded for one package of the snapshot. -/
def depsOf (snap : NpmSnapshot) (id : String) : List String :=
  match snap.packages.lookup id with
  | some e => e.dependencies.map Prod.snd
  | none => []

/-- One expansion step of the visited-set dependency traversal. -/
def closureStep (snap : NpmSnapshot) (ids : List String) : List String :=
  (ids ++ ids.flatMap (depsOf snap)).dedup

/-- Iterate the expansion; `snap.packages.length` rounds reach a fixpoint
on any snapshot, cycles included, because each round only adds recorded
identities. -/
def iterClosure (snap : NpmSnapshot) : Nat → List String → List String
  | 0, ids => ids
  | n + 1, ids => iterClosure snap n (closureStep snap ids)

/-- Every identity required by the roots: the transitive dependency
closure over the snapshot. -/
def requiredIds (snap : NpmSnapshot) (roots : List String) : List String :=
  iterClosure snap snap.packages.length roots.dedup

/-- Identities the requested specifiers pin in the snapshot. -/
def rootsOf (requested : List String) (snap : NpmSnapshot) : List String :=
  requested.filterMap (fun s => snap.specifiers.lookup s)

/-- Modelled from the spec: a cache hit needs an entry keyed by the same
identity whose integrity matches the snapshot record (storage keying must
include the integrity hash); an identity the snapshot does not even record
cannot hit. -/
def cacheHit (cache : List CacheEntry) (snap : NpmSnapshot) (id : String) : Bool :=
  match snap.packages.lookup id with
  | some e => cache.any (fun c => c.id == id && c.integrity == e.integrity)
  | none => false

/-- Modelled from the spec: one resolution pass.  The first component is
the resolved snapshot or the fatal error; the second records whether the
RegistryClient collaborator (`registryRun`) was contacted. -/
def resolve (registryRun : List String → Except ResolveError NpmSnapshot)
    (requested : List String) (snap : NpmSnapshot) (cache : List CacheEntry)
    (mode : ResolveMode) : Except ResolveError NpmSnapshot × Bool :=
  if mode = .reload then (registryRun requested, true)
  else
    match requested.find? (fun s => (snap.specifiers.lookup s).isNone) with
    | some s =>
        if mode = .cachedOnly then (.error (.notFoundInCache s), false)
        else (registryRun requested, true)
    | none =>
        match (requiredIds snap (rootsOf requested snap)).find?
            (fun id => ! cacheHit cache snap id) with
        | some id =>
            if mode = .cachedOnly then (.error (.notFoundInCache id), false)
            else (registryRun requested, true)
        | none => (.ok snap, false)

/-- Canonical writer for a JSON string of the lockfile document. -/
def jsonStr (s : String) : String := "\"" ++ s ++ "\""

/-- Canonical writer for one string-to-string mapping entry. -/
def serializePair (p : String × String) : String :=
  jsonStr p.1 ++ ": " ++ jsonStr p.2

/-- Canonical writer for an ordered string-to-string mapping. -/
def serializeStrMap (l : List (String × String)) : String :=
  "\x7b " ++ String.intercalate ", " (l.map serializePair) ++ " \x7d"

/-- Canonical writer for one `npm.packages` entry. -/
def serializeEntry (p : String × PackageEntry) : String :=
  jsonStr p.1 ++ ": \x7b \"integrity\": " ++ jsonStr p.2.integrity ++
    ", \"dependencies\": " ++ serializeStrMap p.2.dependencies ++ " \x7d"

/-- Canonical writer for the whole lockfile document; byte-for-byte
deterministic in the document contents. -/
def serializeLockfile (lf : LockfileContent) : String :=
  "\x7b \"version\": " ++ jsonStr lf.version ++ ", \"remote\": " ++
    serializeStrMap lf.remote ++ ", \"npm\": \x7b \"specifiers\": " ++
    serializeStrMap lf.npm.specifiers ++ ", \"packages\": \x7b " ++
    String.intercalate ", " (lf.npm.packages.map serializeEntry) ++ " \x7d \x7d \x7d"

/-- Modelled from the spec: resolve then rewrite the lockfile, returning
the bytes written back to disk. -/
def resolveAndWrite (registryRun : List String → Except ResolveError NpmSnapshot)
    (requested : List String) (lf : LockfileContent) (cache : List CacheEntry)
    (mode : ResolveMode) : Except ResolveError String :=
  match (resolve registryRun requested lf.npm cache mode).1 with
  | .ok snap' => .ok (serializeLockfile { lf with npm := snap' })
  | .error e => .error e

/-- C2: resolving a specifier set against a lockfile that already pins
every requested specifier, whose pinned dependency closure is fully
recorded and cached, with no reload, and rewriting the lockfile leaves the
on-disk bytes exactly as they were: the resolver returns the snapshot
unchanged without contacting the registry, and the canonical writer
reproduces the identical bytes. -/
theorem lockfile_write_idempotent
    (registryRun : List String → Except ResolveError NpmSnapshot)
    (requested : List String) (lf : LockfileContent) (cache : List CacheEntry)
    (mode : ResolveMode) (disk : String)
    (hmode : mode ≠ .reload)
    (hpin : ∀ s ∈ requested, (lf.npm.specifiers.lookup s).isSome = true)
    (hcache : ∀ id ∈ requiredIds lf.npm (rootsOf requested lf.npm),
      cacheHit cache lf.npm id = true)
    (hdisk : disk = serializeLockfile lf) :
    resolveAndWrite registryRun requested lf cache mode = .ok disk ∧
    (resolve registryRun requested lf.npm cache mode).2 = false := by
  have hfind1 : requested.find? (fun s => (lf.npm.specifiers.lookup s).isNone)
      = none :=
    List.find?_eq_none.mpr (fun x hx => by
      have h := hpin x hx
      cases hlp : List.lookup x lf.npm.specifiers with
      | none => rw [hlp] at h; cases h
      | some v => simp [hlp])
  have hfind2 : ((requiredIds lf.npm (rootsOf requested lf.npm)).find?
      (fun id => ! cacheHit cache lf.npm id)) = none :=
    List.find?_eq_none.mpr (fun x hx => by simp [hcache x hx])
  have hres : resolve registryRun requested lf.npm cache mode =
      (.ok lf.npm, false) := by
    simp [resolve, hmode, hfind1, hfind2]
  exact ⟨by simp [resolveAndWrite, hres, hdisk], by simp [hres]⟩

/-- A registry stand-in that must never be reached; resolution paths that
stay cache-local are independent of it. -/
def registryUnreachable : List String → Except ResolveError NpmSnapshot :=
  fun _ => .error (.notFoundInRegistry "unreachable")

/-- Concrete already-satisfied lockfile for the idempotence witness, shaped
after the lock_file_lock_write test: cowsay pinned with its dependency
closure fully recorded. -/
def idemLock : LockfileContent :=
  ⟨"2", [],
    ⟨[("cowsay@1.5.0", "cowsay@1.5.0")],
      [("cowsay@1.5.0", ⟨"sha512-8Ipzr54Z", [("get-stdin", "get-stdin@8.0.0")]⟩),
        ("get-stdin@8.0.0", ⟨"sha512-sY22aA6x", []⟩)]⟩⟩

/-- Cache entries matching every recorded package of `idemLock`. -/
def idemCache : List CacheEntry :=
  [⟨"cowsay@1.5.0", "sha512-8Ipzr54Z"⟩, ⟨"get-stdin@8.0.0", "sha512-sY22aA6x"⟩]

/-- Witness for C2: caching npm:cowsay@1.5.0 over the already-satisfied
lockfile rewrites exactly the prior bytes without contacting the registry. -/
theorem lockfile_write_idempotent_witness :
    (ResolveMode.normal ≠ .reload) ∧
    (∀ s ∈ ["cowsay@1.5.0"], (idemLock.npm.specifiers.lookup s).isSome = true) ∧
    (∀ id ∈ requiredIds idemLock.npm (rootsOf ["cowsay@1.5.0"] idemLock.npm),
      cacheHit idemCache idemLock.npm id = true) ∧
    (resolveAndWrite registryUnreachable ["cowsay@1.5.0"] idemLock idemCache
        .normal = .ok (serializeLockfile idemLock) ∧
      (resolve registryUnreachable ["cowsay@1.5.0"] idemLock.npm idemCache
        .normal).2 = false) :=
  ⟨by decide, by decide, by decide,
    lockfile_write_idempotent registryUnreachable ["cowsay@1.5.0"] idemLock
      idemCache .normal (serializeLockfile idemLock)
      (by decide) (by decide) (by decide) rfl⟩

/-- C4: in cached-only mode, when every requested specifier is pinned but
some required identity of the dependency closure has no matching cache
entry, resolution fails with NotFoundInCache naming exactly such a missing
identity and the RegistryClient is never contacted, whatever it would
answer; conversely when every required identity is cached the same
resolution succeeds, again without any registry contact. -/
theorem cached_only_fails_without_network
    (registryRun : List String → Except ResolveError NpmSnapshot)
    (requested : List String) (snap : NpmSnapshot) (cache : List CacheEntry)
    (hpin : ∀ s ∈ requested, (snap.specifiers.lookup s).isSome = true) :
    ((∃ id ∈ requiredIds snap (rootsOf requested snap),
        cacheHit cache snap id = false) →
      ∃ id, id ∈ requiredIds snap (rootsOf requested snap) ∧
        cacheHit cache snap id = false ∧
        resolve registryRun requested snap cache .cachedOnly =
          (.error (.notFoundInCache id), false)) ∧
    ((∀ id ∈ requiredIds snap (rootsOf requested snap),
        cacheHit cache snap id = true) →
      resolve registryRun requested snap cache .cachedOnly = (.ok snap, false)) := by
  have hfind1 : requested.find? (fun s => (snap.specifiers.lookup s).isNone)
      = none :=
    List.find?_eq_none.mpr (fun x hx => by
      have h := hpin x hx
      cases hlp : List.lookup x snap.specifiers with
      | none => rw [hlp] at h; cases h
      | some v => simp [hlp])
  constructor
  · rintro ⟨id, hid, hmiss⟩
    have hsome : ((requiredIds snap (rootsOf requested snap)).find?
        (fun x => ! cacheHit cache snap x)).isSome :=
      List.find?_isSome.mpr ⟨id, hid, by simp [hmiss]⟩
    obtain ⟨missing, hfind⟩ := Option.isSome_iff_exists.mp hsome
    have hmem : missing ∈ requiredIds snap (rootsOf requested snap) :=
      List.mem_of_find?_eq_some hfind
    have hmiss' : cacheHit cache snap missing = false := by
      have := List.find?_some (p := fun x => ! cacheHit cache snap x) hfind
      simpa using this
    exact ⟨missing, hmem, hmiss', by simp [resolve, hfind1, hfind]⟩
  · intro hall
    have hfind2 : ((requiredIds snap (rootsOf requested snap)).find?
        (fun id => ! cacheHit cache snap id)) = none :=
      List.find?_eq_none.mpr (fun x hx => by simp [hall x hx])
    simp [resolve, hfind1, hfind2]

/-- Concrete snapshot for the cached-only witness, shaped after the
cached_only_after_first_run test: chalk pinned, its ansi-styles dependency
recorded but absent from the cache. -/
def cachedOnlySnap : NpmSnapshot :=
  ⟨[("chalk", "chalk@5.0.1")],
    [("chalk@5.0.1", ⟨"sha512-chalk", [("ansi-styles", "ansi-styles@6.1.0")]⟩),
      ("ansi-styles@6.1.0", ⟨"sha512-ansi", []⟩)]⟩

/-- Cache holding only the chalk tarball, not ansi-styles. -/
def cachedOnlyCache : List CacheEntry := [⟨"chalk@5.0.1", "sha512-chalk"⟩]

/-- Witness for C4: resolving chalk in cached-only mode with ansi-styles
missing from the cache fails with NotFoundInCache without touching the
registry. -/
theorem cached_only_fails_without_network_witness :
    (∀ s ∈ ["chalk"], (cachedOnlySnap.specifiers.lookup s).isSome = true) ∧
    (∃ id ∈ requiredIds cachedOnlySnap (rootsOf ["chalk"] cachedOnlySnap),
      cacheHit cachedOnlyCache cachedOnlySnap id = false) ∧
    (∃ id, id ∈ requiredIds cachedOnlySnap (rootsOf ["chalk"] cachedOnlySnap) ∧
      cacheHit cachedOnlyCache cachedOnlySnap id = false ∧
      resolve registryUnreachable ["chalk"] cachedOnlySnap cachedOnlyCache
        .cachedOnly = (.error (.notFoundInCache id), false)) :=
  ⟨by decide, by decide,
    (cached_only_fails_without_network registryUnreachable ["chalk"]
      cachedOnlySnap cachedOnlyCache (by decide)).1 (by decide)⟩

/-! ## Registry metadata retry (modelled from the spec, sections 4.4 and 7)

A registry metadata lookup that fails to produce a matching version on the
first attempt is retried exactly once; a second failure surfaces an error
naming the package and the unsatisfied constraint.  The registry is
modelled as an attempt-indexed response so a transient first failure can
recover on the retry. -/

/-- Modelled from the spec: registry metadata, reduced to the version list
the matcher inspects. -/
structure RegistryMeta where
  versions : List String
deriving DecidableEq

/-- Select a matching version from a fetched (or failed, `none`) metadata
response; `sat` is the semantic-range matcher. -/
def attemptSelect (meta : Option RegistryMeta) (sat : String → Bool) :
    Option String :=
  meta.bind (fun m => m.versions.find? sat)

/-- Modelled from the spec: fetch metadata, and when no matching version is
found retry the fetch once before surfacing an error naming the package
and the constraint.  Returns how many fetch attempts were observed together
with the outcome. -/
def resolveVersionWithRetry (responses : Nat → Option RegistryMeta)
    (sat : String → Bool) (pkg constraintText : String) :
    Nat × Except String String :=
  match attemptSelect (responses 0) sat with
  | some v => (1, .ok v)
  | none =>
      match attemptSelect (responses 1) sat with
      | some v => (2, .ok v)
      | none =>
          (2, .error ("Could not find npm package '" ++ pkg ++ "' matching '"
            ++ constraintText ++ "'."))

/-- C9: when the first metadata attempt yields no matching version the
fetch is retried exactly once — two attempts are observed, never more —
and if the retry also fails the surfaced error names the package and the
unsatisfied constraint; a first-attempt success performs a single fetch,
and no path swallows the failure. -/
theorem registry_metadata_retried_once (responses : Nat → Option RegistryMeta)
    (sat : String → Bool) (pkg ct : String)
    (hfail : attemptSelect (responses 0) sat = none) :
    (resolveVersionWithRetry responses sat pkg ct).1 = 2 ∧
    (resolveVersionWithRetry responses sat pkg ct).1 ≤ 2 ∧
    (attemptSelect (responses 1) sat = none →
      (resolveVersionWithRetry responses sat pkg ct).2 =
        .error ("Could not find npm package '" ++ pkg ++ "' matching '"
          ++ ct ++ "'.")) ∧
    (∀ v, attemptSelect (responses 1) sat = some v →
      (resolveVersionWithRetry responses sat pkg ct).2 = .ok v) := by
  refine ⟨?_, ?_, ?_, ?_⟩
  · cases h1 : attemptSelect (responses 1) sat <;>
      simp [resolveVersionWithRetry, hfail, h1]
  · cases h1 : attemptSelect (responses 1) sat <;>
      simp [resolveVersionWithRetry, hfail, h1]
  · intro h1
    simp [resolveVersionWithRetry, hfail, h1]
  · intro v h1
    simp [resolveVersionWithRetry, hfail, h1]

/-- Witness for C9: the non_existent_dep_version scenario — both attempts
for @denotest/esm-basic lack a version matching =99.99.99, so exactly two
fetches happen and the error message of the test is surfaced. -/
theorem registry_metadata_retried_once_witness :
    (attemptSelect (some ⟨["1.0.0"]⟩) (fun v => v == "99.99.99") = none) ∧
    ((resolveVersionWithRetry (fun _ => some ⟨["1.0.0"]⟩)
        (fun v => v == "99.99.99") "@denotest/esm-basic" "=99.99.99").1 = 2 ∧
      (resolveVersionWithRetry (fun _ => some ⟨["1.0.0"]⟩)
          (fun v => v == "99.99.99") "@denotest/esm-basic" "=99.99.99").2 =
        .error "Could not find npm package '@denotest/esm-basic' matching '=99.99.99'.") := by
  refine ⟨by decide, ?_⟩
  have h := registry_metadata_retried_once (fun _ => some ⟨["1.0.0"]⟩)
    (fun v => v == "99.99.99") "@denotest/esm-basic" "=99.99.99" (by decide)
  refine ⟨h.1, ?_⟩
  rw [h.2.2.1 (by decide)]
  have hmsg : ("Could not find npm package '" ++ "@denotest/esm-basic" ++
      "' matching '" ++ "=99.99.99" ++ "'.") =
      "Could not find npm package '@denotest/esm-basic' matching '=99.99.99'." := by
    decide
  rw [hmsg]

/-! ## Peer-dependency copy instances (modelled from the spec, section 4.4
step 4)

Identical name-and-version pairs across the dependency graph deduplicate
into one shared instance unless their resolution paths require different
peer-dependency bindings; each further distinct peer-binding context gets a
secondary copy instance, distinguished by a synthetic numeric suffix, with
its own extraction folder.  The assignment is a pure function of the
occurrence list, so it is identical across re-runs, reload and the local
node_modules layout. -/

/-- Modelled from the spec: one resolution of a package along some
dependency path, with the peer bindings that path requires. -/
structure PeerOccurrence where
  name : String
  version : String
  peers : List (String × String)
deriving DecidableEq

/-- Distinct elements of a list in first-seen order. -/
def firstSeenAux {α : Type} [DecidableEq α] (seen : List α) : List α → List α
  | [] => []
  | a :: l =>
      if a ∈ seen then firstSeenAux seen l
      else a :: firstSeenAux (a :: seen) l

/-- Distinct elements of a list in first-seen order, nothing seen yet. -/
def firstSeen {α : Type} [DecidableEq α] (l : List α) : List α :=
  firstSeenAux [] l

/-- The distinct peer-binding contexts under which a given name and version
occur, in first-seen order. -/
def peerContexts (occs : List PeerOccurrence) (name version : String) :
    List (List (String × String)) :=
  firstSeen ((occs.filter
    (fun o => o.name == name && o.version == version)).map PeerOccurrence.peers)

/-- A resolved package instance: the shared identity plus the copy index,
zero for the primary instance and positive for peer-split copies. -/
structure PkgInstance where
  name : String
  version : String
  copyIndex : Nat
deriving DecidableEq

/-- Position of a peer context among the recorded distinct contexts. -/
def ctxIndexOf (ctx : List (String × String)) :
    List (List (String × String)) → Nat
  | [] => 0
  | c :: rest => if c = ctx then 0 else ctxIndexOf ctx rest + 1

/-- Modelled from the spec: the instance an occurrence resolves to — the
identity shared by every occurrence of the same name and version, split by
the index of its peer-binding context among the distinct contexts. -/
def assignInstance (occs : List PeerOccurrence) (o : PeerOccurrence) :
    PkgInstance :=
  ⟨o.name, o.version, ctxIndexOf o.peers (peerContexts occs o.name o.version)⟩

/-- The synthetic suffix of a copy instance: empty for the primary, `_k`
for the k-th copy. -/
def copySuffix : Nat → String
  | 0 => ""
  | n + 1 => "_" ++ toString (n + 1)

/-- Extraction folder of an instance in the global cache, beside the plain
version folder. -/
def cacheFolderName (inst : PkgInstance) : String :=
  inst.version ++ copySuffix inst.copyIndex

/-- Folder of an instance under node_modules/.deno: the name with slashes
replaced by pluses, the version, and the copy suffix. -/
def denoDirFolderName (inst : PkgInstance) : String :=
  String.mk (inst.name.data.map (fun c => if c = '/' then '+' else c)) ++
    "@" ++ inst.version ++ copySuffix inst.copyIndex

/-- Membership in the first-seen list: exactly the members of the list that
were not already seen. -/
theorem mem_firstSeenAux {α : Type} [DecidableEq α] (x : α) :
    ∀ (l seen : List α), x ∈ firstSeenAux seen l ↔ x ∈ l ∧ x ∉ seen := by
  intro l
  induction l with
  | nil => intro seen; simp [firstSeenAux]
  | cons a t ih =>
      intro seen
      by_cases ha : a ∈ seen
      · rw [firstSeenAux, if_pos ha, ih seen]
        constructor
        · rintro ⟨hx, hs⟩
          exact ⟨List.mem_cons_of_mem a hx, hs⟩
        · rintro ⟨hx, hs⟩
          rcases List.mem_cons.mp hx with rfl | hx
          · exact absurd ha hs
          · exact ⟨hx, hs⟩
      · rw [firstSeenAux, if_neg ha]
        constructor
        · intro hx
          rcases List.mem_cons.mp hx with rfl | hx
          · exact ⟨List.mem_cons_self _ _, ha⟩
          · obtain ⟨ht, hs⟩ := (ih (a :: seen)).mp hx
            exact ⟨List.mem_cons_of_mem a ht,
              fun hm => hs (List.mem_cons_of_mem a hm)⟩
        · rintro ⟨hx, hs⟩
          rcases List.mem_cons.mp hx with rfl | hx
          · exact List.mem_cons_self x _
          · by_cases hxa : x = a
            · subst hxa
              exact List.mem_cons_self x _
            · refine List.mem_cons_of_mem a ((ih (a :: seen)).mpr ⟨hx, ?_⟩)
              intro hm
              rcases List.mem_cons.mp hm with rfl | hm
              · exact hxa rfl
              · exact hs hm

/-- The context index is injective on members of the context list. -/
theorem ctxIndexOf_inj (l : List (List (String × String)))
    (x y : List (String × String)) (hx : x ∈ l) (hy : y ∈ l)
    (h : ctxIndexOf x l = ctxIndexOf y l) : x = y := by
  induction l with
  | nil => cases hx
  | cons c rest ih =>
      by_cases hcx : c = x <;> by_cases hcy : c = y
      · rw [← hcx, ← hcy]
      · rw [ctxIndexOf, ctxIndexOf, if_pos hcx, if_neg hcy] at h
        cases h
      · rw [ctxIndexOf, ctxIndexOf, if_neg hcx, if_pos hcy] at h
        cases h
      · rw [ctxIndexOf, ctxIndexOf, if_neg hcx, if_neg hcy] at h
        have hx' : x ∈ rest := by
          rcases List.mem_cons.mp hx with rfl | hm
          · exact absurd rfl hcx
          · exact hm
        have hy' : y ∈ rest := by
          rcases List.mem_cons.mp hy with rfl | hm
          · exact absurd rfl hcy
          · exact hm
        exact ih hx' hy' (Nat.succ_injective h)

/-- The peer context of an occurrence of the list appears among the
distinct contexts recorded for its name and version. -/
theorem mem_peerContexts (occs : List PeerOccurrence) (o : PeerOccurrence)
    (ho : o ∈ occs) : o.peers ∈ peerContexts occs o.name o.version := by
  rw [peerContexts, firstSeen, mem_firstSeenAux]
  refine ⟨?_, by simp⟩
  exact List.mem_map_of_mem _ (List.mem_filter.mpr ⟨ho, by simp⟩)

/-- C8: two occurrences of the same name and version anywhere in the graph
resolve to the same package instance exactly when they require the same
peer-dependency bindings; occurrences whose peer bindings differ get
distinct copy instances of the shared identity.  The assignment is a pure
function of the resolution input, hence stable across re-runs. -/
theorem peer_dep_copy_instances (occs : List PeerOccurrence)
    (o1 o2 : PeerOccurrence) (h1 : o1 ∈ occs) (h2 : o2 ∈ occs)
    (hn : o1.name = o2.name) (hv : o1.version = o2.version) :
    (assignInstance occs o1 = assignInstance occs o2 ↔ o1.peers = o2.peers) ∧
    (assignInstance occs o1).name = o1.name ∧
    (assignInstance occs o1).version = o1.version := by
  refine ⟨⟨?_, ?_⟩, rfl, rfl⟩
  · intro he
    have hidx := congrArg PkgInstance.copyIndex he
    simp only [assignInstance] at hidx
    rw [← hn, ← hv] at hidx
    have hm1 := mem_peerContexts occs o1 h1
    have hm2 : o2.peers ∈ peerContexts occs o1.name o1.version := by
      rw [hn, hv]
      exact mem_peerContexts occs o2 h2
    exact ctxIndexOf_inj _ _ _ hm1 hm2 hidx
  · intro hp
    simp [assignInstance, hn, hv, hp]

/-- Occurrence list of the peer_deps_with_copied_folders scenario: the
grandchild package resolved twice at the same version under two different
peer bindings. -/
def grandchildOccs : List PeerOccurrence :=
  [⟨"@denotest/peer-dep-test-grandchild", "1.0.0", [("peer", "peer-a@1.0.0")]⟩,
    ⟨"@denotest/peer-dep-test-grandchild", "1.0.0", [("peer", "peer-b@1.0.0")]⟩]

/-- Witness for C8: the peer_deps_with_copied_folders scenario — the
grandchild package at 1.0.0 reached under two different peer bindings
splits into the primary instance extracted at 1.0.0 and a copy at 1.0.0_1,
named @denotest+peer-dep-test-grandchild@1.0.0_1 under node_modules/.deno,
while equal bindings share one instance. -/
theorem peer_dep_copy_instances_witness :
    (PeerOccurrence.mk "@denotest/peer-dep-test-grandchild" "1.0.0"
        [("peer", "peer-a@1.0.0")] ∈ grandchildOccs) ∧
    (PeerOccurrence.mk "@denotest/peer-dep-test-grandchild" "1.0.0"
        [("peer", "peer-b@1.0.0")] ∈ grandchildOccs) ∧
    ((assignInstance grandchildOccs
        ⟨"@denotest/peer-dep-test-grandchild", "1.0.0", [("peer", "peer-a@1.0.0")]⟩ =
      assignInstance grandchildOccs
        ⟨"@denotest/peer-dep-test-grandchild", "1.0.0", [("peer", "peer-b@1.0.0")]⟩)
      ↔ ([("peer", "peer-a@1.0.0")] :
          List (String × String)) = [("peer", "peer-b@1.0.0")]) ∧
    cacheFolderName (assignInstance grandchildOccs
      ⟨"@denotest/peer-dep-test-grandchild", "1.0.0", [("peer", "peer-a@1.0.0")]⟩)
      = "1.0.0" ∧
    cacheFolderName (assignInstance grandchildOccs
      ⟨"@denotest/peer-dep-test-grandchild", "1.0.0", [("peer", "peer-b@1.0.0")]⟩)
      = "1.0.0_1" ∧
    denoDirFolderName (assignInstance grandchildOccs
      ⟨"@denotest/peer-dep-test-grandchild", "1.0.0", [("peer", "peer-b@1.0.0")]⟩)
      = "@denotest+peer-dep-test-grandchild@1.0.0_1" :=
  ⟨by decide, by decide,
    (peer_dep_copy_instances grandchildOccs
      ⟨"@denotest/peer-dep-test-grandchild", "1.0.0", [("peer", "peer-a@1.0.0")]⟩
      ⟨"@denotest/peer-dep-test-grandchild", "1.0.0", [("peer", "peer-b@1.0.0")]⟩
      (by decide) (by decide) rfl rfl).1,
    by decide, by decide, by decide⟩

end Spec2Proof
